import Mathlib

/-!
Verification development for the wallineex-backend payment-verification
subsystem.  The repository contains two implementation variants of the
service: the standalone `server.js` application (result cache keyed
`payment-<orderId>`, per-(IP, order) throttle, webhook-driven cache
invalidation) and the routed application (`routes/payment.js`, cache keyed
`verify_<orderId>`, status mapping PAID/ACTIVE/else, size-triggered sweep).
Both are embedded below, faithfully to the JavaScript sources:

* JS `Map` objects are modelled as association lists (`mapGet`, `mapSet`,
  `mapDel`); `mapSet` removes any previous binding of the key and prepends
  the new one, so maps built from `[]` always have pairwise distinct keys
  and their length coincides with JS `Map.size`.  Iteration order plays no
  role in any verified property.
* `Date.now()` values are natural numbers (milliseconds).  JS subtraction
  `now - t` is modelled with truncated `Nat` subtraction: whenever the JS
  difference is negative, both the JS comparisons used by the sources
  (`< d`, `> d`) and their `Nat` counterparts at `0` take the same branch,
  so the embeddings agree with the JS semantics on all inputs.
* `crypto.createHmac('sha256', key).update(data).digest('base64')` is
  embedded as a full executable HMAC-SHA-256 over UTF-8 byte lists with
  base64 output (`Crypto.hmacSha256Base64`); 32-bit words are `Nat`
  truncated with `% 2^32`.
* `JSON.parse` is library code and is modelled by passing the already
  parsed value as an `Option` (with `none` for a parse failure / throwing
  property access), as the handlers only inspect the parsed fields.
-/

/-! ## Association-list model of JS `Map` -/

def mapGet {α : Type} (m : List (String × α)) (k : String) : Option α :=
  (m.find? (fun p => p.1 == k)).map (fun p => p.2)

def mapSet {α : Type} (m : List (String × α)) (k : String) (v : α) :
    List (String × α) :=
  (k, v) :: m.filter (fun p => !(p.1 == k))

def mapDel {α : Type} (m : List (String × α)) (k : String) :
    List (String × α) :=
  m.filter (fun p => !(p.1 == k))

/-! ## HMAC-SHA-256 with base64 output

Embedding of the digest used by `generateSignature` in both variants
(`crypto.createHmac('sha256', secret).update(timestamp + body)
.digest('base64')`).  Words are `Nat`s kept below `2^32`. -/

namespace Crypto

/-- Truncate to a 32-bit word. -/
def w32 (n : Nat) : Nat := n % 4294967296

/-- 32-bit right rotation. -/
def rotr (x n : Nat) : Nat := w32 ((x >>> n) ||| (x <<< (32 - n)))

def bsig0 (x : Nat) : Nat := rotr x 2 ^^^ rotr x 13 ^^^ rotr x 22

def bsig1 (x : Nat) : Nat := rotr x 6 ^^^ rotr x 11 ^^^ rotr x 25

def ssig0 (x : Nat) : Nat := rotr x 7 ^^^ rotr x 18 ^^^ (x >>> 3)

def ssig1 (x : Nat) : Nat := rotr x 17 ^^^ rotr x 19 ^^^ (x >>> 10)

def chf (x y z : Nat) : Nat := (x &&& y) ^^^ ((x ^^^ 4294967295) &&& z)

def majf (x y z : Nat) : Nat := (x &&& y) ^^^ (x &&& z) ^^^ (y &&& z)

/-- The 64 SHA-256 round constants of FIPS 180-4, rendered in decimal. -/
def K : List Nat :=
  [1116352408, 1899447441, 3049323471, 3921009573, 961987163,
   1508970993, 2453635748, 2870763221, 3624381080, 310598401,
   607225278, 1426881987, 1925078388, 2162078206, 2614888103,
   3248222580, 3835390401, 4022224774, 264347078, 604807628,
   770255983, 1249150122, 1555081692, 1996064986, 2554220882,
   2821834349, 2952996808, 3210313671, 3336571891, 3584528711,
   113926993, 338241895, 666307205, 773529912, 1294757372,
   1396182291, 1695183700, 1986661051, 2177026350, 2456956037,
   2730485921, 2820302411, 3259730800, 3345764771, 3516065817,
   3600352804, 4094571909, 275423344, 430227734, 506948616,
   659060556, 883997877, 958139571, 1322822218, 1537002063,
   1747873779, 1955562222, 2024104815, 2227730452, 2361852424,
   2428436474, 2756734187, 3204031479, 3329325298]

/-- The eight SHA-256 initial hash words of FIPS 180-4, in decimal. -/
def H0 : List Nat :=
  [1779033703, 3144134277, 1013904242, 2773480762, 1359893119,
   2600822924, 528734635, 1541459225]

/-- Big-endian grouping of bytes into 32-bit words. -/
def bytesToWords : List Nat → List Nat
  | a :: b :: c :: d :: rest =>
      (a * 16777216 + b * 65536 + c * 256 + d) :: bytesToWords rest
  | _ => []

/-- Extend the 16-word message schedule to 64 words. -/
def extendW (ws : Array Nat) : Array Nat :=
  (List.range 48).foldl
    (fun ws _ =>
      let n := ws.size
      ws.push (w32 (ssig1 (ws.getD (n - 2) 0) + ws.getD (n - 7) 0 +
        ssig0 (ws.getD (n - 15) 0) + ws.getD (n - 16) 0)))
    ws

/-- One SHA-256 compression step over an eight-word working state. -/
def compressBlock (h : List Nat) (block : List Nat) : List Nat :=
  let w := extendW (Array.mk (bytesToWords block))
  let st0 := (h.getD 0 0, h.getD 1 0, h.getD 2 0, h.getD 3 0,
              h.getD 4 0, h.getD 5 0, h.getD 6 0, h.getD 7 0)
  let stN := (List.range 64).foldl
    (fun st t =>
      match st with
      | (a, b, c, d, e, f, g, hh) =>
        let t1 := w32 (hh + bsig1 e + chf e f g + K.getD t 0 + w.getD t 0)
        let t2 := w32 (bsig0 a + majf a b c)
        (w32 (t1 + t2), a, b, c, w32 (d + t1), e, f, g))
    st0
  match stN with
  | (a, b, c, d, e, f, g, hh) =>
    [w32 (h.getD 0 0 + a), w32 (h.getD 1 0 + b), w32 (h.getD 2 0 + c),
     w32 (h.getD 3 0 + d), w32 (h.getD 4 0 + e), w32 (h.getD 5 0 + f),
     w32 (h.getD 6 0 + g), w32 (h.getD 7 0 + hh)]

/-- SHA-256 padding: `0x80`, zeros to 56 mod 64, 8-byte big-endian bit length. -/
def padMsg (msg : List Nat) : List Nat :=
  let L := msg.length
  let k := (119 - L % 64) % 64
  msg ++ [128] ++ List.replicate k 0 ++
    (List.range 8).map (fun i => ((8 * L) >>> ((7 - i) * 8)) % 256)

/-- Split a byte list into 64-byte blocks (fuel-driven recursion). -/
def chunks64 : Nat → List Nat → List (List Nat)
  | 0, _ => []
  | _ + 1, [] => []
  | n + 1, bs => bs.take 64 :: chunks64 n (bs.drop 64)

/-- SHA-256 of a byte list, as a 32-byte list. -/
def sha256 (msg : List Nat) : List Nat :=
  let padded := padMsg msg
  let h := (chunks64 padded.length padded).foldl compressBlock H0
  List.flatten (h.map (fun w =>
    [(w >>> 24) % 256, (w >>> 16) % 256, (w >>> 8) % 256, w % 256]))

/-- HMAC-SHA-256 (RFC 2104) over byte lists, block size 64. -/
def hmacSha256 (key msg : List Nat) : List Nat :=
  let k0 := if 64 < key.length then sha256 key else key
  let k1 := k0 ++ List.replicate (64 - k0.length) 0
  let ipadKey := k1.map (fun b => b ^^^ 54)
  let opadKey := k1.map (fun b => b ^^^ 92)
  sha256 (opadKey ++ sha256 (ipadKey ++ msg))

/-- UTF-8 encoding of one Unicode code point (as in `String.utf8EncodeChar`). -/
def charUtf8 (n : Nat) : List Nat :=
  if n ≤ 127 then [n]
  else if n ≤ 2047 then
    [((n >>> 6) &&& 31) ||| 192, (n &&& 63) ||| 128]
  else if n ≤ 65535 then
    [((n >>> 12) &&& 15) ||| 224, ((n >>> 6) &&& 63) ||| 128,
     (n &&& 63) ||| 128]
  else
    [((n >>> 18) &&& 7) ||| 240, ((n >>> 12) &&& 63) ||| 128,
     ((n >>> 6) &&& 63) ||| 128, (n &&& 63) ||| 128]

/-- UTF-8 bytes of a string, as `Nat`s below 256. -/
def strBytes (s : String) : List Nat :=
  (s.data.map (fun c => charUtf8 c.toNat)).flatten

def b64Alphabet : List Char :=
  "ABCDEFGHIJKLMNOPQRSTUVWXYZabcdefghijklmnopqrstuvwxyz0123456789+/".toList

def b64c (n : Nat) : Char := b64Alphabet.getD n 'A'

/-- Standard base64 encoding with `=` padding. -/
def b64Encode : List Nat → String
  | a :: b :: c :: rest =>
      let n := a * 65536 + b * 256 + c
      String.mk [b64c ((n >>> 18) % 64), b64c ((n >>> 12) % 64),
                 b64c ((n >>> 6) % 64), b64c (n % 64)] ++ b64Encode rest
  | [a, b] =>
      let n := a * 65536 + b * 256
      String.mk [b64c ((n >>> 18) % 64), b64c ((n >>> 12) % 64),
                 b64c ((n >>> 6) % 64)] ++ "="
  | [a] =>
      let n := a * 65536
      String.mk [b64c ((n >>> 18) % 64), b64c ((n >>> 12) % 64)] ++ "=="
  | [] => ""

/-- `crypto.createHmac('sha256', secret).update(data).digest('base64')`. -/
def hmacSha256Base64 (secret data : String) : String :=
  b64Encode (hmacSha256 (strBytes secret) (strBytes data))

end Crypto

/-! ## `config/cashfree.js` (src/unnamed/part_002): signature functions -/

/-- `CashfreeConfig.generateSignature(rawBody, timestamp)`: keyed digest of
`timestamp + rawBody` with the shared secret, base64 encoded. -/
def generateSignature (secretKey rawBody timestamp : String) : String :=
  Crypto.hmacSha256Base64 secretKey (timestamp ++ rawBody)

/-- `CashfreeConfig.verifyWebhookSignature(rawBody, timestamp, receivedSignature)`:
recompute the expected signature and compare for equality. -/
def verifyWebhookSignature (secretKey rawBody timestamp receivedSignature : String) :
    Bool :=
  generateSignature secretKey rawBody timestamp == receivedSignature

/-! ## `utils/validation.js` -/

/-- `validateOrderId`: the regular expression `^WX\d{13}$` — the literal
`WX` followed by exactly thirteen ASCII digits. -/
def validateOrderId (orderId : String) : Bool :=
  orderId.length == 15 && orderId.take 2 == "WX" &&
    (orderId.drop 2).all Char.isDigit

/-! ## `middleware/security.js`: the `validateWebhookSignature` middleware

The middleware parses the `x-webhook-timestamp` header with `parseInt` and
rejects requests whose timestamp is more than 300 seconds away from
`Math.floor(Date.now() / 1000)`.  It performs no digest comparison itself;
it either responds 401 or calls `next()`.  (It is exported by the module
but never mounted by the application.) -/

inductive MWResult where
  | next
  | unauthorized (msg : String)
deriving DecidableEq

/-- JS `parseInt` restricted to the inputs relevant here: an optional sign
followed by a longest digit prefix; `none` models `NaN`. -/
def parseIntStr (s : String) : Option Int :=
  let digitsPrefix : List Char → Option Nat := fun cs =>
    let ds := cs.takeWhile Char.isDigit
    if ds.isEmpty then none
    else some (ds.foldl (fun a c => a * 10 + (c.toNat - 48)) 0)
  match s.toList with
  | '-' :: rest => (digitsPrefix rest).map (fun n => -(n : Int))
  | cs => (digitsPrefix cs).map (fun n => (n : Int))

/-- The `validateWebhookSignature` middleware body.  `nowSec` is
`Math.floor(Date.now() / 1000)` at handling time.  A non-numeric timestamp
makes `timeDiff` NaN, and `NaN > 300` is false in JS, so such requests
fall through to `next()`. -/
def validateWebhookSignatureMW (urlHasWebhook : Bool)
    (tsHdr sigHdr : Option String) (nowSec : Int) : MWResult :=
  if !urlHasWebhook then .next
  else
    match tsHdr, sigHdr with
    | some ts, some _ =>
      match parseIntStr ts with
      | some webhookTime =>
          if 300 < (nowSec - webhookTime).natAbs then
            .unauthorized "Webhook timestamp too old"
          else .next
      | none => .next
    | _, _ => .unauthorized "Missing webhook signature headers"

/-! ## `server.js` (standalone variant) -/

/-- `CACHE_DURATION = 5 * 60 * 1000` (five minutes, in milliseconds). -/
def CACHE_DURATION : Nat := 300000

/-- The normalized order payload read from the processor's
`GET /orders/{orderId}` response (only the fields the handler uses). -/
structure RemoteOrder where
  order_status : String
  order_amount : Nat
  order_id : String
deriving DecidableEq

/-- Outcome of the remote fetch: `ok` is a 2xx with a JSON body, `err` is
any axios failure (timeout, 4xx, 5xx), which the handler turns into a 500. -/
inductive RemoteAnswer where
  | ok (data : RemoteOrder)
  | err
deriving DecidableEq

/-- The JSON object built by `/api/verify-payment` (`result` in the
source).  `order_data` carries the raw remote payload; `cache_age` is only
present on cache hits. -/
structure SResult where
  success : Bool
  order_status : String
  payment_status : String
  order_data : RemoteOrder
  order_amount : Nat
  order_id : String
  cached : Bool
  cache_age : Option Nat
deriving DecidableEq

structure SCacheEntry where
  data : SResult
  timestamp : Nat
deriving DecidableEq

structure RateEntry where
  lastCall : Nat
  count : Nat
deriving DecidableEq

/-- The two module-level maps of `server.js`. -/
structure SState where
  paymentCache : List (String × SCacheEntry)
  rateLimit : List (String × RateEntry)
deriving DecidableEq

def rlKey (ip orderId : String) : String := ip ++ "-" ++ orderId

/-- `checkRateLimit(ip, orderId)`: within a 2-second window of the stored
`lastCall` the counter is incremented (the window start is not moved, also
not on rejection); more than 5 calls in the window are rejected; outside
the window the entry is reset to `{lastCall: now, count: 1}`. -/
def checkRateLimit (m : List (String × RateEntry)) (ip orderId : String)
    (now : Nat) : Bool × List (String × RateEntry) :=
  let key := rlKey ip orderId
  match mapGet m key with
  | some limit =>
      if now - limit.lastCall < 2000 then
        let limit' : RateEntry := ⟨limit.lastCall, limit.count + 1⟩
        if 5 < limit'.count then (false, mapSet m key limit')
        else (true, mapSet m key limit')
      else (true, mapSet m key ⟨now, 1⟩)
  | none => (true, mapSet m key ⟨now, 1⟩)

inductive SOutcome where
  | validationError
  | rateLimited
  | cacheHit (body : SResult)
  | configError
  | fresh (body : SResult)
  | upstreamError
deriving DecidableEq

/-- Result of one `/api/verify-payment` request: the new module state, the
response body class, and whether `axios.get` on the processor was
performed. -/
structure SStepOut where
  state : SState
  outcome : SOutcome
  remoteCalled : Bool
deriving DecidableEq

/-- The fresh-verification `result` object (`server.js` lines 315-323). -/
def sMkResult (data : RemoteOrder) : SResult :=
  { success := true
    order_status := data.order_status
    payment_status := if data.order_status == "PAID" then "SUCCESS" else "PENDING"
    order_data := data
    order_amount := data.order_amount
    order_id := data.order_id
    cached := false
    cache_age := none }

/-- The part of `/api/verify-payment` after the cache check: credentials
check, remote fetch, normalization, and the PAID-only cache write. -/
def sVerifyRemote (st : SState) (cacheKey : String) (now : Nat)
    (hasCreds : Bool) (remote : RemoteAnswer) : SStepOut :=
  if !hasCreds then ⟨st, .configError, false⟩
  else
    match remote with
    | .ok data =>
        let result := sMkResult data
        let cache' :=
          if data.order_status == "PAID" then
            mapSet st.paymentCache cacheKey ⟨result, now⟩
          else st.paymentCache
        ⟨⟨cache', st.rateLimit⟩, .fresh result, true⟩
    | .err => ⟨st, .upstreamError, true⟩

/-- `/api/verify-payment` (`server.js` lines 241-350): falsy-orderId check,
throttle, cache lookup with TTL check and `cached`/`cache_age` annotation,
then the remote path.  `orderId = none` models an absent field and
`some ""` the empty string (both falsy in JS). -/
def sVerify (st : SState) (ip : String) (orderId : Option String) (now : Nat)
    (hasCreds : Bool) (remote : RemoteAnswer) : SStepOut :=
  match orderId with
  | none => ⟨st, .validationError, false⟩
  | some oid =>
    if oid == "" then ⟨st, .validationError, false⟩
    else
      let rc := checkRateLimit st.rateLimit ip oid now
      if rc.1 then
        let st' : SState := ⟨st.paymentCache, rc.2⟩
        let cacheKey := "payment-" ++ oid
        match mapGet st'.paymentCache cacheKey with
        | some e =>
            if now - e.timestamp < CACHE_DURATION then
              ⟨st', .cacheHit { e.data with
                  cached := true,
                  cache_age := some ((now - e.timestamp) / 1000) }, false⟩
            else sVerifyRemote st' cacheKey now hasCreds remote
        | none => sVerifyRemote st' cacheKey now hasCreds remote
      else ⟨⟨st.paymentCache, rc.2⟩, .rateLimited, false⟩

/-- Parsed webhook payload: `webhookData.type` and
`webhookData.data.order.order_id`; `order = none` models a payload whose
destructuring throws (caught as a 500). -/
structure OrderRef where
  order_id : String
deriving DecidableEq

structure WebhookData where
  type : String
  order : Option OrderRef
deriving DecidableEq

inductive WebhookOutcome where
  | invalidSignature
  | processed
  | processingError
deriving DecidableEq

/-- `handleWebhook` (`server.js` lines 353-398): recompute the keyed digest
of `timestamp + rawBody`, reject on mismatch, then delete the cache entry
for the embedded order on a `PAYMENT_SUCCESS_WEBHOOK`.  A missing timestamp
header stringifies to `"undefined"` inside the JS concatenation.  The
handler never consults the clock: no freshness condition appears here. -/
def sWebhook (cache : List (String × SCacheEntry)) (secret : String)
    (sigHdr tsHdr : Option String) (rawBody : String)
    (parsed : Option WebhookData) :
    List (String × SCacheEntry) × WebhookOutcome :=
  let tsStr := tsHdr.getD "undefined"
  let expected := Crypto.hmacSha256Base64 secret (tsStr ++ rawBody)
  match sigHdr with
  | none => (cache, .invalidSignature)
  | some sig =>
    if sig == expected then
      match parsed with
      | none => (cache, .processingError)
      | some wd =>
        if wd.type == "PAYMENT_SUCCESS_WEBHOOK" then
          match wd.order with
          | none => (cache, .processingError)
          | some o => (mapDel cache ("payment-" ++ o.order_id), .processed)
        else (cache, .processed)
    else (cache, .invalidSignature)

/-- `cleanupCache` (`server.js` lines 18-34): drop payment-cache entries
older than `CACHE_DURATION` and rate-limit entries older than ten
minutes. -/
def cleanupCache (now : Nat) (st : SState) : SState :=
  ⟨st.paymentCache.filter (fun p => !(CACHE_DURATION < now - p.2.timestamp)),
   st.rateLimit.filter (fun p => !(600000 < now - p.2.lastCall))⟩

/-- One externally triggered transition of the standalone server: a
verification request, a webhook delivery, the `/api/clear-cache` escape
hatch, or the five-minute sweep. -/
inductive SEvent where
  | verify (ip : String) (orderId : Option String) (now : Nat)
      (hasCreds : Bool) (remote : RemoteAnswer)
  | webhook (secret : String) (sigHdr tsHdr : Option String)
      (rawBody : String) (parsed : Option WebhookData)
  | clearOne (orderId : String)
  | clearAll
  | sweep (now : Nat)

def sStep (st : SState) : SEvent → SState
  | .verify ip oid now creds remote => (sVerify st ip oid now creds remote).state
  | .webhook secret sig ts raw parsed =>
      ⟨(sWebhook st.paymentCache secret sig ts raw parsed).1, st.rateLimit⟩
  | .clearOne oid => ⟨mapDel st.paymentCache ("payment-" ++ oid), st.rateLimit⟩
  | .clearAll => ⟨[], []⟩
  | .sweep now => cleanupCache now st

def sInit : SState := ⟨[], []⟩

def sRun : SState → List SEvent → SState
  | st, [] => st
  | st, ev :: evs => sRun (sStep st ev) evs

/-- Does this event write a PAID result for order `X` into the cache?
(The only events that ever create a cache entry for `X`.) -/
def isPaidVerifyFor (X : String) : SEvent → Bool
  | .verify _ oid _ creds (.ok data) =>
      oid == some X && data.order_status == "PAID" && creds
  | _ => false

/-- Iterate `checkRateLimit` for one (ip, orderId) key over a list of call
times, collecting the verdicts. -/
def rlRun (ip orderId : String) :
    List (String × RateEntry) → List Nat →
    List (String × RateEntry) × List Bool
  | m, [] => (m, [])
  | m, t :: ts =>
      let r := checkRateLimit m ip orderId t
      let rest := rlRun ip orderId r.2 ts
      (rest.1, r.1 :: rest.2)

def countTrue : List Bool → Nat
  | [] => 0
  | b :: l => (if b then 1 else 0) + countTrue l

/-! ## `routes/payment.js` (routed variant) -/

/-- `CACHE_DURATION = 30000` in `routes/payment.js`. -/
def P_CACHE_DURATION : Nat := 30000

/-- Remote order payload fields used by the routed verify handler. -/
structure PRemoteOrder where
  order_status : String
  order_amount : Nat
  order_currency : String
  customer_details : String
deriving DecidableEq

inductive PRemoteAnswer where
  | ok (data : PRemoteOrder)
  | notFound
  | failure
deriving DecidableEq

/-- The `verificationResult` object (`routes/payment.js` lines 156-167).
`payment_details` is the optional secondary payments fetch; `verified_at`
is the handling time (the ISO rendering of `new Date()`). -/
structure PResult where
  success : Bool
  order_id : String
  order_status : String
  payment_status : String
  order_amount : Nat
  order_currency : String
  customer_details : String
  payment_details : Option Nat
  verified_at : Nat
deriving DecidableEq

structure PCacheEntry where
  data : PResult
  timestamp : Nat
deriving DecidableEq

inductive POutcome where
  | validationError
  | cacheHit (body : PResult)
  | fresh (body : PResult)
  | notFound
  | upstreamError
deriving DecidableEq

structure PStepOut where
  cache : List (String × PCacheEntry)
  outcome : POutcome
  remoteCalled : Bool
deriving DecidableEq

/-- The status derivation of `routes/payment.js` lines 142-143:
`PAID → SUCCESS`, `ACTIVE → PENDING`, anything else `FAILED`. -/
def derivePaymentStatus (orderStatus : String) : String :=
  if orderStatus == "PAID" then "SUCCESS"
  else if orderStatus == "ACTIVE" then "PENDING"
  else "FAILED"

/-- The size-triggered cleanup (`routes/payment.js` lines 176-180): once
the map holds more than 100 entries, delete exactly those entries whose
age exceeds the 30-second TTL. -/
def pCacheCleanup (now : Nat) (c : List (String × PCacheEntry)) :
    List (String × PCacheEntry) :=
  if 100 < c.length then
    c.filter (fun p => !(P_CACHE_DURATION < now - p.2.timestamp))
  else c

/-- The `verificationResult` record built by the routed verify handler
(`routes/payment.js` lines 156-167). -/
def pMkResult (oid : String) (now : Nat) (od : PRemoteOrder)
    (paymentDetails : Option Nat) : PResult :=
  { success := true
    order_id := oid
    order_status := od.order_status
    payment_status := derivePaymentStatus od.order_status
    order_amount := od.order_amount
    order_currency := od.order_currency
    customer_details := od.customer_details
    payment_details := paymentDetails
    verified_at := now }

/-- The remote part of the routed verify handler: fetch, status
derivation, best-effort payments fetch for PAID orders, cache write,
size-triggered cleanup.  A remote 404 maps to the not-found response, any
other failure to the 500 response (both without cache mutation). -/
def pVerifyRemote (cache : List (String × PCacheEntry)) (oid cacheKey : String)
    (now : Nat) (remote : PRemoteAnswer) (payments : Option Nat) : PStepOut :=
  match remote with
  | .ok od =>
      let result := pMkResult oid now od
        (if od.order_status == "PAID" then payments else none)
      let c1 := mapSet cache cacheKey ⟨result, now⟩
      ⟨pCacheCleanup now c1, .fresh result, true⟩
  | .notFound => ⟨cache, .notFound, true⟩
  | .failure => ⟨cache, .upstreamError, true⟩

/-- `/api/verify-payment` in `routes/payment.js` (lines 108-208): only the
falsy check guards the input; a cache hit within the 30-second TTL returns
the stored body unchanged (no `cached` annotation in this variant). -/
def pVerify (cache : List (String × PCacheEntry)) (orderId : Option String)
    (now : Nat) (remote : PRemoteAnswer) (payments : Option Nat) : PStepOut :=
  match orderId with
  | none => ⟨cache, .validationError, false⟩
  | some oid =>
    if oid == "" then ⟨cache, .validationError, false⟩
    else
      let cacheKey := "verify_" ++ oid
      match mapGet cache cacheKey with
      | some e =>
          if now - e.timestamp < P_CACHE_DURATION then
            ⟨cache, .cacheHit e.data, false⟩
          else pVerifyRemote cache oid cacheKey now remote payments
      | none => pVerifyRemote cache oid cacheKey now remote payments

/-- Fold a list of successful PAID verifications (all at time 0) through
the routed verify handler; used to exercise the size-triggered sweep. -/
def pRunVerifies (c : List (String × PCacheEntry)) : List String →
    List (String × PCacheEntry)
  | [] => c
  | oid :: rest =>
      pRunVerifies
        (pVerify c (some oid) 0 (.ok ⟨"PAID", 299, "INR", "cust"⟩) none).cache
        rest

/-! ## Specification-side helpers and witness fixtures -/

/-- Expected verdict list for a burst of in-window calls whose stored
counter starts at `c`: the k-th call is admitted exactly when the
incremented counter `c + 1 + k` stays at or below 5. -/
def winVerdicts : Nat → Nat → List Bool
  | _, 0 => []
  | c, n + 1 => decide (c + 1 ≤ 5) :: winVerdicts (c + 1) n

/-- Invariant of the `server.js` payment cache: every stored body is a
PAID result with derived payment status SUCCESS. -/
def sPaidInv (c : List (String × SCacheEntry)) : Prop :=
  ∀ p ∈ c, p.2.data.order_status = "PAID" ∧ p.2.data.payment_status = "SUCCESS"

/-- Fixture: a PAID verification result for a fixed order. -/
def exPaidResult : SResult := sMkResult ⟨"PAID", 299, "WX1234567890123"⟩

/-- Fixture: a cache entry for the fixed order, written at time 0. -/
def exEntry : SCacheEntry := ⟨exPaidResult, 0⟩

/-- Fixture: a `server.js` cache holding exactly the fixed order. -/
def exCache : List (String × SCacheEntry) := [("payment-WX1234567890123", exEntry)]

/-- Fixture: a full `server.js` state with the fixed entry and no
throttle history. -/
def exState : SState := ⟨exCache, []⟩

/-- Fixture: the order-id list used to overfill the routed cache. -/
def c9oids : List String := (List.range 101).map (fun i => "k" ++ toString i)

/-- Fixture: a routed-variant verification result. -/
def exPResult : PResult :=
  pMkResult "WX1234567890123" 40000 ⟨"PAID", 299, "INR", "cust"⟩ none

/-- Fixture: a routed cache with 100 fresh entries (written at 40000) and
one stale entry (written at 0), 101 entries in total. -/
def exBigPCache : List (String × PCacheEntry) :=
  (List.range 100).map (fun i => ("w" ++ toString i, ⟨exPResult, 40000⟩)) ++
    [("stale", ⟨exPResult, 0⟩)]

/-- Fixture: a one-event history in which some other order was verified as
PAID. -/
def exTrace : List SEvent :=
  [SEvent.verify "9.9.9.9" (some "WX1111111111111") 0 true
    (.ok ⟨"PAID", 100, "WX1111111111111"⟩)]

/-! ## Lemmas about the map model -/

theorem mapGet_set_self {α : Type} (m : List (String × α)) (k : String) (v : α) :
    mapGet (mapSet m k v) k = some v := by
  simp [mapGet, mapSet, List.find?]

theorem find_filter_out_key {α : Type} (m : List (String × α)) (k k' : String)
    (h : k' ≠ k) :
    (m.filter (fun p => !(p.1 == k))).find? (fun p => p.1 == k') =
      m.find? (fun p => p.1 == k') := by
  induction m with
  | nil => rfl
  | cons p m ih =>
    by_cases hk : p.1 = k
    · have h1 : (p.1 == k) = true := beq_iff_eq.mpr hk
      have h2 : (p.1 == k') = false := by
        apply beq_eq_false_iff_ne.mpr
        intro hc
        exact h (hc ▸ hk ▸ rfl)
      simp [List.filter_cons, List.find?, h1, h2, ih]
    · have h1 : (p.1 == k) = false := beq_eq_false_iff_ne.mpr hk
      by_cases hk' : p.1 = k'
      · have h2 : (p.1 == k') = true := beq_iff_eq.mpr hk'
        simp [List.filter_cons, List.find?, h1, h2]
      · have h2 : (p.1 == k') = false := beq_eq_false_iff_ne.mpr hk'
        simp [List.filter_cons, List.find?, h1, h2, ih]

theorem mapGet_set_ne {α : Type} (m : List (String × α)) (k k' : String) (v : α)
    (h : k' ≠ k) : mapGet (mapSet m k v) k' = mapGet m k' := by
  have h2 : (k == k') = false := beq_eq_false_iff_ne.mpr (fun hc => h (hc ▸ rfl))
  simp [mapGet, mapSet, List.find?, h2, find_filter_out_key m k k' h]

theorem mapGet_del_self {α : Type} (m : List (String × α)) (k : String) :
    mapGet (mapDel m k) k = none := by
  have : (m.filter (fun p => !(p.1 == k))).find? (fun p => p.1 == k) = none := by
    rw [List.find?_eq_none]
    intro p hp
    have := (List.mem_filter.mp hp).2
    simp at this
    simp [this]
  simp [mapGet, mapDel, this]

theorem mapGet_del_ne {α : Type} (m : List (String × α)) (k k' : String)
    (h : k' ≠ k) : mapGet (mapDel m k) k' = mapGet m k' := by
  simp [mapGet, mapDel, find_filter_out_key m k k' h]

theorem mem_mapSet {α : Type} {m : List (String × α)} {k : String} {v : α}
    {p : String × α} (h : p ∈ mapSet m k v) : p = (k, v) ∨ p ∈ m := by
  rcases List.mem_cons.mp h with h1 | h1
  · exact Or.inl h1
  · exact Or.inr (List.mem_filter.mp h1).1

theorem mem_mapDel {α : Type} {m : List (String × α)} {k : String}
    {p : String × α} (h : p ∈ mapDel m k) : p ∈ m :=
  (List.mem_filter.mp h).1

theorem mapGet_eq_some_mem {α : Type} {m : List (String × α)} {k : String}
    {v : α} (h : mapGet m k = some v) : (k, v) ∈ m := by
  unfold mapGet at h
  cases hf : m.find? (fun p => p.1 == k) with
  | none => rw [hf] at h; simp at h
  | some p =>
    rw [hf] at h
    simp at h
    have hmem := List.mem_of_find?_eq_some hf
    have hkey := List.find?_some hf
    have : p = (k, v) := by
      cases p
      simp at hkey h ⊢
      exact ⟨hkey, h⟩
    exact this ▸ hmem

theorem mapGet_filter_pred {α : Type} {m : List (String × α)}
    {q : String × α → Bool} {k : String} {v : α}
    (h : mapGet (m.filter q) k = some v) : q (k, v) = true := by
  have hmem := mapGet_eq_some_mem h
  exact (List.mem_filter.mp hmem).2

theorem mapGet_none_filter {α : Type} {m : List (String × α)}
    {q : String × α → Bool} {k : String}
    (h : mapGet m k = none) : mapGet (m.filter q) k = none := by
  unfold mapGet at h ⊢
  cases hf : m.find? (fun p => p.1 == k) with
  | none =>
    rw [List.find?_eq_none] at hf
    have : (m.filter q).find? (fun p => p.1 == k) = none := by
      rw [List.find?_eq_none]
      intro p hp
      exact hf p (List.mem_filter.mp hp).1
    simp [this]
  | some p => rw [hf] at h; simp at h

/-- Appending to a fixed prefix is injective on strings. -/
theorem string_append_left_cancel {p a b : String} (h : p ++ a = p ++ b) :
    a = b := by
  have h3 : a.data = b.data := by simpa using congrArg String.data h
  cases a
  cases b
  exact congrArg String.mk h3

/-! ## Lemmas about `checkRateLimit` -/

theorem checkRateLimit_absent (m : List (String × RateEntry)) (ip oid : String)
    (now : Nat) (h : mapGet m (rlKey ip oid) = none) :
    checkRateLimit m ip oid now = (true, mapSet m (rlKey ip oid) ⟨now, 1⟩) := by
  simp [checkRateLimit, h]

theorem checkRateLimit_reset (m : List (String × RateEntry)) (ip oid : String)
    (now t0 c : Nat) (h : mapGet m (rlKey ip oid) = some ⟨t0, c⟩)
    (hw : 2000 ≤ now - t0) :
    checkRateLimit m ip oid now = (true, mapSet m (rlKey ip oid) ⟨now, 1⟩) := by
  simp [checkRateLimit, h, Nat.not_lt.mpr hw]

theorem checkRateLimit_inWindow (m : List (String × RateEntry)) (ip oid : String)
    (now t0 c : Nat) (h : mapGet m (rlKey ip oid) = some ⟨t0, c⟩)
    (hw : now - t0 < 2000) :
    checkRateLimit m ip oid now =
      (decide (c + 1 ≤ 5), mapSet m (rlKey ip oid) ⟨t0, c + 1⟩) := by
  by_cases h5 : 5 < c + 1
  · simp [checkRateLimit, h, hw, h5, Nat.not_le.mpr h5]
  · simp [checkRateLimit, h, hw, h5, Nat.not_lt.mp h5]

theorem countTrue_winVerdicts : ∀ (n c : Nat),
    countTrue (winVerdicts c n) = min n (5 - c) := by
  intro n
  induction n with
  | zero => intro c; simp [winVerdicts, countTrue]
  | succ n ih =>
    intro c
    by_cases h5 : c + 1 ≤ 5
    · have := ih (c + 1)
      simp only [winVerdicts, countTrue, decide_eq_true_eq, h5, if_pos, this]
      omega
    · have := ih (c + 1)
      have hd : decide (c + 1 ≤ 5) = false := decide_eq_false h5
      simp only [winVerdicts, countTrue, hd, if_neg, Bool.false_eq_true,
        not_false_eq_true, this]
      omega

theorem rlRun_inWindow (ip oid : String) : ∀ (times : List Nat)
    (m : List (String × RateEntry)) (t0 c : Nat),
    mapGet m (rlKey ip oid) = some ⟨t0, c⟩ →
    (∀ t ∈ times, t - t0 < 2000) →
    (rlRun ip oid m times).2 = winVerdicts c times.length ∧
    mapGet (rlRun ip oid m times).1 (rlKey ip oid) =
      some ⟨t0, c + times.length⟩ := by
  intro times
  induction times with
  | nil =>
    intro m t0 c h _
    simpa [rlRun, winVerdicts] using h
  | cons t ts ih =>
    intro m t0 c h hw
    have hstep := checkRateLimit_inWindow m ip oid t t0 c h
      (hw t (List.mem_cons_self t ts))
    have hnext : mapGet (mapSet m (rlKey ip oid) ⟨t0, c + 1⟩) (rlKey ip oid) =
        some ⟨t0, c + 1⟩ := mapGet_set_self _ _ _
    have hrec := ih (mapSet m (rlKey ip oid) ⟨t0, c + 1⟩) t0 (c + 1) hnext
      (fun t' ht' => hw t' (List.mem_cons_of_mem t ht'))
    refine ⟨?_, ?_⟩
    · simp only [rlRun, hstep, winVerdicts, List.length_cons, hrec.1]
    · simp only [rlRun, hstep]
      rw [hrec.2]
      congr 1
      simp
      omega

/-- C4: for any (IP, order) key with no throttle history, the first call
at `t0` is admitted; a burst of further calls inside the 2-second window
of `t0` produces exactly the verdicts `winVerdicts 1`, of which precisely
`min n 4` are admitted (so at most 5 calls are admitted in the window and
the 6th call is rejected); the stored window start stays `t0` with the
counter incremented on every call — rejected ones included — and a call
made a full cooldown window after `t0` is admitted with the counter reset
to 1. -/
theorem c4_throttle_burst (ip oid : String) (m : List (String × RateEntry))
    (t0 : Nat) (times : List Nat)
    (habs : mapGet m (rlKey ip oid) = none)
    (hwin : ∀ t ∈ times, t - t0 < 2000) :
    (checkRateLimit m ip oid t0).1 = true ∧
    (rlRun ip oid (checkRateLimit m ip oid t0).2 times).2 =
      winVerdicts 1 times.length ∧
    countTrue (rlRun ip oid (checkRateLimit m ip oid t0).2 times).2 =
      min times.length 4 ∧
    mapGet (rlRun ip oid (checkRateLimit m ip oid t0).2 times).1 (rlKey ip oid) =
      some ⟨t0, 1 + times.length⟩ ∧
    (∀ t', 2000 ≤ t' - t0 →
      (checkRateLimit (rlRun ip oid (checkRateLimit m ip oid t0).2 times).1
          ip oid t').1 = true ∧
      mapGet (checkRateLimit (rlRun ip oid (checkRateLimit m ip oid t0).2
          times).1 ip oid t').2 (rlKey ip oid) = some ⟨t', 1⟩) := by
  have hfirst := checkRateLimit_absent m ip oid t0 habs
  have hset : mapGet (checkRateLimit m ip oid t0).2 (rlKey ip oid) =
      some ⟨t0, 1⟩ := by
    rw [hfirst]
    exact mapGet_set_self _ _ _
  have hrun := rlRun_inWindow ip oid times (checkRateLimit m ip oid t0).2 t0 1
    hset hwin
  refine ⟨by rw [hfirst], hrun.1, ?_, by simpa [Nat.add_comm] using hrun.2, ?_⟩
  · rw [hrun.1, countTrue_winVerdicts]
  · intro t' ht'
    have hfin : mapGet (rlRun ip oid (checkRateLimit m ip oid t0).2 times).1
        (rlKey ip oid) = some ⟨t0, 1 + times.length⟩ := by
      simpa [Nat.add_comm] using hrun.2
    have hres := checkRateLimit_reset _ ip oid t' t0 (1 + times.length) hfin ht'
    rw [hres]
    exact ⟨rfl, mapGet_set_self _ _ _⟩

/-- Witness for C4: seven calls — one at time 0, five more inside the
2-second window (the verdict list is `[true, true, true, true, false]`:
the 6th call is the rejected one), and a seventh at time 2000 which is
admitted with the counter back at 1. -/
theorem c4_throttle_burst_witness :
    (mapGet ([] : List (String × RateEntry)) (rlKey "1.2.3.4" "WX1234567890123")
        = none) ∧
    winVerdicts 1 5 = [true, true, true, true, false] ∧
    ((checkRateLimit [] "1.2.3.4" "WX1234567890123" 0).1 = true ∧
     (rlRun "1.2.3.4" "WX1234567890123"
        (checkRateLimit [] "1.2.3.4" "WX1234567890123" 0).2
        [100, 200, 300, 400, 500]).2 = winVerdicts 1 5 ∧
     countTrue (rlRun "1.2.3.4" "WX1234567890123"
        (checkRateLimit [] "1.2.3.4" "WX1234567890123" 0).2
        [100, 200, 300, 400, 500]).2 = min 5 4 ∧
     mapGet (rlRun "1.2.3.4" "WX1234567890123"
        (checkRateLimit [] "1.2.3.4" "WX1234567890123" 0).2
        [100, 200, 300, 400, 500]).1 (rlKey "1.2.3.4" "WX1234567890123") =
        some ⟨0, 1 + 5⟩ ∧
     ((checkRateLimit (rlRun "1.2.3.4" "WX1234567890123"
        (checkRateLimit [] "1.2.3.4" "WX1234567890123" 0).2
        [100, 200, 300, 400, 500]).1 "1.2.3.4" "WX1234567890123" 2000).1 = true ∧
      mapGet (checkRateLimit (rlRun "1.2.3.4" "WX1234567890123"
        (checkRateLimit [] "1.2.3.4" "WX1234567890123" 0).2
        [100, 200, 300, 400, 500]).1 "1.2.3.4" "WX1234567890123" 2000).2
        (rlKey "1.2.3.4" "WX1234567890123") = some ⟨2000, 1⟩)) := by
  refine ⟨rfl, by decide, ?_⟩
  have h := c4_throttle_burst "1.2.3.4" "WX1234567890123" [] 0
    [100, 200, 300, 400, 500] rfl (by decide)
  exact ⟨h.1, by simpa using h.2.1, by simpa using h.2.2.1, h.2.2.2.1,
    h.2.2.2.2 2000 (by decide)⟩

/-! ## Shape lemmas for the `server.js` verify handler -/

theorem sVerifyRemote_ok_paid (st : SState) (k : String) (now : Nat)
    (data : RemoteOrder) (hpaid : data.order_status = "PAID") :
    sVerifyRemote st k now true (.ok data) =
      ⟨⟨mapSet st.paymentCache k ⟨sMkResult data, now⟩, st.rateLimit⟩,
       .fresh (sMkResult data), true⟩ := by
  simp [sVerifyRemote, hpaid]

theorem sVerifyRemote_remoteCalled (st : SState) (k : String) (now : Nat)
    (remote : RemoteAnswer) :
    (sVerifyRemote st k now true remote).remoteCalled = true := by
  cases remote with
  | ok data => simp [sVerifyRemote]
  | err => simp [sVerifyRemote]

theorem sVerifyRemote_outcome_ne_validation (st : SState) (k : String)
    (now : Nat) (creds : Bool) (remote : RemoteAnswer) :
    (sVerifyRemote st k now creds remote).outcome ≠ .validationError := by
  cases creds <;> cases remote <;> simp [sVerifyRemote]

theorem sVerifyRemote_not_cacheHit (st : SState) (k : String) (now : Nat)
    (creds : Bool) (remote : RemoteAnswer) (r : SResult) :
    (sVerifyRemote st k now creds remote).outcome ≠ .cacheHit r := by
  cases creds <;> cases remote <;> simp [sVerifyRemote]

theorem sVerifyRemote_key_present (st : SState) (k : String) (now : Nat)
    (creds : Bool) (remote : RemoteAnswer)
    (h : (mapGet st.paymentCache k).isSome = true) :
    (mapGet (sVerifyRemote st k now creds remote).state.paymentCache k).isSome
      = true := by
  cases creds with
  | false => simpa [sVerifyRemote] using h
  | true =>
    cases remote with
    | err => simpa [sVerifyRemote] using h
    | ok data =>
      by_cases hp : data.order_status == "PAID"
      · simp [sVerifyRemote, hp, mapGet_set_self]
      · simpa [sVerifyRemote, hp] using h

theorem sVerifyRemote_cache_cases (st : SState) (k : String) (now : Nat)
    (creds : Bool) (remote : RemoteAnswer) :
    (sVerifyRemote st k now creds remote).state.paymentCache = st.paymentCache ∨
    ∃ data : RemoteOrder, remote = .ok data ∧ creds = true ∧
      data.order_status = "PAID" ∧
      (sVerifyRemote st k now creds remote).state.paymentCache =
        mapSet st.paymentCache k ⟨sMkResult data, now⟩ := by
  cases creds with
  | false => exact Or.inl (by simp [sVerifyRemote])
  | true =>
    cases remote with
    | err => exact Or.inl (by simp [sVerifyRemote])
    | ok data =>
      by_cases hp : data.order_status == "PAID"
      · exact Or.inr ⟨data, rfl, rfl, beq_iff_eq.mp hp, by simp [sVerifyRemote, hp]⟩
      · exact Or.inl (by simp [sVerifyRemote, hp])

theorem sVerify_cache_hit (st : SState) (ip oid : String) (now : Nat)
    (e : SCacheEntry) (creds : Bool) (remote : RemoteAnswer)
    (hoid : oid ≠ "")
    (hrl : (checkRateLimit st.rateLimit ip oid now).1 = true)
    (he : mapGet st.paymentCache ("payment-" ++ oid) = some e)
    (hfresh : now - e.timestamp < CACHE_DURATION) :
    sVerify st ip (some oid) now creds remote =
      ⟨⟨st.paymentCache, (checkRateLimit st.rateLimit ip oid now).2⟩,
       .cacheHit { e.data with
          cached := true,
          cache_age := some ((now - e.timestamp) / 1000) }, false⟩ := by
  have hne : (oid == "") = false := beq_eq_false_iff_ne.mpr hoid
  simp [sVerify, hne, hrl, he, hfresh]

theorem sVerify_miss (st : SState) (ip oid : String) (now : Nat) (creds : Bool)
    (remote : RemoteAnswer)
    (hoid : oid ≠ "")
    (hrl : (checkRateLimit st.rateLimit ip oid now).1 = true)
    (hmiss : mapGet st.paymentCache ("payment-" ++ oid) = none) :
    sVerify st ip (some oid) now creds remote =
      sVerifyRemote ⟨st.paymentCache, (checkRateLimit st.rateLimit ip oid now).2⟩
        ("payment-" ++ oid) now creds remote := by
  have hne : (oid == "") = false := beq_eq_false_iff_ne.mpr hoid
  simp [sVerify, hne, hrl, hmiss]

theorem sVerify_stale (st : SState) (ip oid : String) (now : Nat) (creds : Bool)
    (remote : RemoteAnswer) (e : SCacheEntry)
    (hoid : oid ≠ "")
    (hrl : (checkRateLimit st.rateLimit ip oid now).1 = true)
    (he : mapGet st.paymentCache ("payment-" ++ oid) = some e)
    (hstale : CACHE_DURATION ≤ now - e.timestamp) :
    sVerify st ip (some oid) now creds remote =
      sVerifyRemote ⟨st.paymentCache, (checkRateLimit st.rateLimit ip oid now).2⟩
        ("payment-" ++ oid) now creds remote := by
  have hne : (oid == "") = false := beq_eq_false_iff_ne.mpr hoid
  simp [sVerify, hne, hrl, he, Nat.not_lt.mpr hstale]

theorem sVerify_fresh_paid (st : SState) (ip oid : String) (t : Nat)
    (payload : RemoteOrder)
    (hoid : oid ≠ "")
    (hrl : (checkRateLimit st.rateLimit ip oid t).1 = true)
    (hmiss : mapGet st.paymentCache ("payment-" ++ oid) = none)
    (hpaid : payload.order_status = "PAID") :
    sVerify st ip (some oid) t true (.ok payload) =
      ⟨⟨mapSet st.paymentCache ("payment-" ++ oid) ⟨sMkResult payload, t⟩,
        (checkRateLimit st.rateLimit ip oid t).2⟩,
       .fresh (sMkResult payload), true⟩ := by
  rw [sVerify_miss st ip oid t true (.ok payload) hoid hrl hmiss]
  exact sVerifyRemote_ok_paid _ _ _ _ hpaid

/-! ## Claims about the verification orchestrator and webhook handler -/

/-- C1: when a verification for `oid` succeeds with a PAID remote payload
(the only case in which `server.js` writes the cache), a second
verification for the same order within the cache TTL — with no webhook
invalidation or cache clear in between — is answered from the cache: the
response is the first call's result with `cached := true` and the entry's
age in seconds, the outcome is independent of the remote oracle
(`remote2` is universally quantified), and no remote call is performed
(`remoteCalled = false`). -/
theorem c1_cached_second_verification (st : SState) (ip1 ip2 oid : String)
    (t1 t2 : Nat) (payload : RemoteOrder) (remote2 : RemoteAnswer)
    (hoid : oid ≠ "")
    (hmiss : mapGet st.paymentCache ("payment-" ++ oid) = none)
    (hpaid : payload.order_status = "PAID")
    (hrl1 : (checkRateLimit st.rateLimit ip1 oid t1).1 = true)
    (hrl2 : (checkRateLimit (sVerify st ip1 (some oid) t1 true
        (.ok payload)).state.rateLimit ip2 oid t2).1 = true)
    (httl : t2 - t1 < CACHE_DURATION) :
    (sVerify st ip1 (some oid) t1 true (.ok payload)).outcome =
      .fresh (sMkResult payload) ∧
    (sVerify st ip1 (some oid) t1 true (.ok payload)).remoteCalled = true ∧
    (sVerify (sVerify st ip1 (some oid) t1 true (.ok payload)).state ip2
        (some oid) t2 true remote2).outcome =
      .cacheHit { sMkResult payload with
        cached := true,
        cache_age := some ((t2 - t1) / 1000) } ∧
    (sVerify (sVerify st ip1 (some oid) t1 true (.ok payload)).state ip2
        (some oid) t2 true remote2).remoteCalled = false := by
  have h1 := sVerify_fresh_paid st ip1 oid t1 payload hoid hrl1 hmiss hpaid
  have hcache : mapGet (sVerify st ip1 (some oid) t1 true
      (.ok payload)).state.paymentCache ("payment-" ++ oid) =
      some ⟨sMkResult payload, t1⟩ := by
    rw [h1]
    exact mapGet_set_self _ _ _
  have h2 := sVerify_cache_hit (sVerify st ip1 (some oid) t1 true
      (.ok payload)).state ip2 oid t2 ⟨sMkResult payload, t1⟩ true remote2
      hoid hrl2 hcache (by simpa using httl)
  exact ⟨by rw [h1], by rw [h1], by rw [h2], by rw [h2]⟩

/-- Witness for C1 at a concrete input: empty initial state, first call at
time 0 with a PAID payload, second call 10 seconds later with a failing
remote oracle; the second response is the first result annotated
`cached := true` with age 10 s and performs no remote call. -/
theorem c1_cached_second_verification_witness :
    ((sVerify sInit "1.2.3.4" (some "WX1234567890123") 0 true
        (.ok ⟨"PAID", 299, "WX1234567890123"⟩)).outcome =
      .fresh (sMkResult ⟨"PAID", 299, "WX1234567890123"⟩) ∧
    (sVerify sInit "1.2.3.4" (some "WX1234567890123") 0 true
        (.ok ⟨"PAID", 299, "WX1234567890123"⟩)).remoteCalled = true ∧
    (sVerify (sVerify sInit "1.2.3.4" (some "WX1234567890123") 0 true
        (.ok ⟨"PAID", 299, "WX1234567890123"⟩)).state "5.6.7.8"
        (some "WX1234567890123") 10000 true .err).outcome =
      .cacheHit { sMkResult ⟨"PAID", 299, "WX1234567890123"⟩ with
        cached := true,
        cache_age := some ((10000 - 0) / 1000) } ∧
    (sVerify (sVerify sInit "1.2.3.4" (some "WX1234567890123") 0 true
        (.ok ⟨"PAID", 299, "WX1234567890123"⟩)).state "5.6.7.8"
        (some "WX1234567890123") 10000 true .err).remoteCalled = false) :=
  c1_cached_second_verification sInit "1.2.3.4" "5.6.7.8" "WX1234567890123"
    0 10000 ⟨"PAID", 299, "WX1234567890123"⟩ .err (by decide) rfl rfl
    (by decide) (by decide) (by decide)

/-- C2: a `PAYMENT_SUCCESS_WEBHOOK` delivery whose signature equals the
keyed digest of `timestamp + rawBody` is acknowledged, deletes the cache
entry `payment-<orderId>` of the embedded order, and a subsequent
verification for that order (passing validation and throttle) performs a
remote fetch rather than serving from cache. -/
theorem c2_webhook_invalidates_cache (st : SState) (secret ts raw X sig : String)
    (hsig : sig = Crypto.hmacSha256Base64 secret (ts ++ raw)) :
    (sWebhook st.paymentCache secret (some sig) (some ts) raw
        (some ⟨"PAYMENT_SUCCESS_WEBHOOK", some ⟨X⟩⟩)).2 = .processed ∧
    mapGet (sWebhook st.paymentCache secret (some sig) (some ts) raw
        (some ⟨"PAYMENT_SUCCESS_WEBHOOK", some ⟨X⟩⟩)).1 ("payment-" ++ X) =
      none ∧
    (∀ (ip : String) (now : Nat) (remote : RemoteAnswer), X ≠ "" →
      (checkRateLimit st.rateLimit ip X now).1 = true →
      (sVerify ⟨(sWebhook st.paymentCache secret (some sig) (some ts) raw
          (some ⟨"PAYMENT_SUCCESS_WEBHOOK", some ⟨X⟩⟩)).1, st.rateLimit⟩ ip
          (some X) now true remote).remoteCalled = true) := by
  subst hsig
  have hW : sWebhook st.paymentCache secret
      (some (Crypto.hmacSha256Base64 secret (ts ++ raw))) (some ts) raw
      (some ⟨"PAYMENT_SUCCESS_WEBHOOK", some ⟨X⟩⟩) =
      (mapDel st.paymentCache ("payment-" ++ X), .processed) := by
    simp [sWebhook]
  refine ⟨by rw [hW], by rw [hW]; exact mapGet_del_self _ _, ?_⟩
  intro ip now remote hX hrl
  rw [hW]
  rw [sVerify_miss ⟨mapDel st.paymentCache ("payment-" ++ X), st.rateLimit⟩
    ip X now true remote hX hrl (mapGet_del_self _ _)]
  exact sVerifyRemote_remoteCalled _ _ _ _

/-- Witness for C2 at a concrete input: a state whose cache holds an entry
for the fixed order; after the correctly signed PAYMENT_SUCCESS webhook the
entry is gone and the next verification hits the remote processor. -/
theorem c2_webhook_invalidates_cache_witness :
    ((sWebhook exState.paymentCache "topsecret"
        (some (Crypto.hmacSha256Base64 "topsecret" ("1700000000" ++ "body")))
        (some "1700000000") "body"
        (some ⟨"PAYMENT_SUCCESS_WEBHOOK", some ⟨"WX1234567890123"⟩⟩)).2 =
      .processed ∧
    mapGet (sWebhook exState.paymentCache "topsecret"
        (some (Crypto.hmacSha256Base64 "topsecret" ("1700000000" ++ "body")))
        (some "1700000000") "body"
        (some ⟨"PAYMENT_SUCCESS_WEBHOOK", some ⟨"WX1234567890123"⟩⟩)).1
        ("payment-" ++ "WX1234567890123") = none ∧
    (sVerify ⟨(sWebhook exState.paymentCache "topsecret"
        (some (Crypto.hmacSha256Base64 "topsecret" ("1700000000" ++ "body")))
        (some "1700000000") "body"
        (some ⟨"PAYMENT_SUCCESS_WEBHOOK", some ⟨"WX1234567890123"⟩⟩)).1,
        exState.rateLimit⟩ "1.2.3.4" (some "WX1234567890123") 60000 true
        .err).remoteCalled = true) := by
  have h := c2_webhook_invalidates_cache exState "topsecret" "1700000000"
    "body" "WX1234567890123"
    (Crypto.hmacSha256Base64 "topsecret" ("1700000000" ++ "body")) rfl
  exact ⟨h.1, h.2.1, h.2.2 "1.2.3.4" 60000 .err (by decide) (by decide)⟩

/-- C5 counterexample: `"AB1234567890123"` does not match `WX` + 13 digits
(`validateOrderId` rejects it), yet the verify endpoint does not return a
validation error for it: the request passes the only guard (the falsy
check), mutates the throttle map, and performs the remote call.  The
format validator is never invoked by the endpoint. -/
theorem c5_counterexample_malformed_id_reaches_remote :
    validateOrderId "AB1234567890123" = false ∧
    (sVerify sInit "1.2.3.4" (some "AB1234567890123") 0 true
      (.ok ⟨"ACTIVE", 299, "AB1234567890123"⟩)).outcome ≠
        SOutcome.validationError ∧
    (sVerify sInit "1.2.3.4" (some "AB1234567890123") 0 true
      (.ok ⟨"ACTIVE", 299, "AB1234567890123"⟩)).remoteCalled = true ∧
    (sVerify sInit "1.2.3.4" (some "AB1234567890123") 0 true
      (.ok ⟨"ACTIVE", 299, "AB1234567890123"⟩)).state.rateLimit ≠ [] := by
  refine ⟨by decide, by decide, by decide, by decide⟩

/-- C5 (amended): only an absent or empty `orderId` fails fast with the
validation error — and then with no throttle, cache, or remote interaction
(the state is returned unchanged and `remoteCalled = false`) — while every
non-empty `orderId`, well-formed or not, passes the endpoint's only check
and never yields the validation error. -/
theorem c5_amended_only_falsy_rejected (st : SState) (ip : String) (now : Nat)
    (creds : Bool) (remote : RemoteAnswer) :
    sVerify st ip none now creds remote = ⟨st, .validationError, false⟩ ∧
    sVerify st ip (some "") now creds remote = ⟨st, .validationError, false⟩ ∧
    (∀ oid : String, oid ≠ "" →
      (sVerify st ip (some oid) now creds remote).outcome ≠
        .validationError) := by
  refine ⟨rfl, by simp [sVerify], ?_⟩
  intro oid hoid
  have hne : (oid == "") = false := beq_eq_false_iff_ne.mpr hoid
  simp only [sVerify, hne, Bool.false_eq_true, if_false]
  by_cases hrl : (checkRateLimit st.rateLimit ip oid now).1 = true
  · simp only [hrl, if_true]
    cases hc : mapGet st.paymentCache ("payment-" ++ oid) with
    | none => exact sVerifyRemote_outcome_ne_validation _ _ _ _ _
    | some e =>
      by_cases hf : now - e.timestamp < CACHE_DURATION
      · simp [hf]
      · simp only [hf, if_false]
        exact sVerifyRemote_outcome_ne_validation _ _ _ _ _
  · have hrl' : (checkRateLimit st.rateLimit ip oid now).1 = false :=
      Bool.eq_false_iff.mpr hrl
    simp [hrl']

/-- Witness for C5 (amended) at a concrete input. -/
theorem c5_amended_only_falsy_rejected_witness :
    (sVerify sInit "1.2.3.4" none 7 true .err = ⟨sInit, .validationError, false⟩ ∧
     sVerify sInit "1.2.3.4" (some "") 7 true .err =
       ⟨sInit, .validationError, false⟩ ∧
     (sVerify sInit "1.2.3.4" (some "not-an-order-id") 7 true .err).outcome ≠
       SOutcome.validationError) := by
  have h := c5_amended_only_falsy_rejected sInit "1.2.3.4" 7 true .err
  exact ⟨h.1, h.2.1, h.2.2 "not-an-order-id" (by decide)⟩

/-- C7 counterexample: a stale entry (written at time 0 and read at
`CACHE_DURATION + 1`) is skipped by the read, but the read does not remove
it — after the verification completes (with a non-PAID remote answer, so
no overwrite) the map still contains the very same entry, contradicting
"after any stale read the map no longer contains that key". -/
theorem c7_counterexample_stale_read_keeps_entry :
    ¬ ((300001 : Nat) - exEntry.timestamp < CACHE_DURATION) ∧
    (sVerify exState "1.2.3.4" (some "WX1234567890123") 300001 true
        (.ok ⟨"ACTIVE", 299, "WX1234567890123"⟩)).outcome =
      .fresh (sMkResult ⟨"ACTIVE", 299, "WX1234567890123"⟩) ∧
    mapGet (sVerify exState "1.2.3.4" (some "WX1234567890123") 300001 true
        (.ok ⟨"ACTIVE", 299, "WX1234567890123"⟩)).state.paymentCache
      "payment-WX1234567890123" = some exEntry := by
  refine ⟨by decide, by decide, by decide⟩

/-- C7 (amended): a stale cache entry is treated as a miss — it is never
served (`cacheHit` is impossible) and the verification proceeds to the
remote call — but the read does not evict it: the key is still present in
the cache afterwards.  Removal of stale entries is performed by the
periodic `cleanupCache` sweep, after which every surviving payment-cache
entry is within the TTL. -/
theorem c7_amended_stale_read_is_miss_sweep_evicts (st : SState)
    (ip oid : String) (now : Nat) (e : SCacheEntry) (remote : RemoteAnswer)
    (hoid : oid ≠ "")
    (hrl : (checkRateLimit st.rateLimit ip oid now).1 = true)
    (he : mapGet st.paymentCache ("payment-" ++ oid) = some e)
    (hstale : CACHE_DURATION ≤ now - e.timestamp) :
    (∀ r, (sVerify st ip (some oid) now true remote).outcome ≠ .cacheHit r) ∧
    (sVerify st ip (some oid) now true remote).remoteCalled = true ∧
    (mapGet (sVerify st ip (some oid) now true remote).state.paymentCache
        ("payment-" ++ oid)).isSome = true ∧
    (∀ (st2 : SState) (k : String) (e2 : SCacheEntry) (t : Nat),
      mapGet (cleanupCache t st2).paymentCache k = some e2 →
      t - e2.timestamp ≤ CACHE_DURATION) := by
  have hs := sVerify_stale st ip oid now true remote e hoid hrl he hstale
  refine ⟨?_, ?_, ?_, ?_⟩
  · intro r
    rw [hs]
    exact sVerifyRemote_not_cacheHit _ _ _ _ _ _
  · rw [hs]
    exact sVerifyRemote_remoteCalled _ _ _ _
  · rw [hs]
    exact sVerifyRemote_key_present _ _ _ _ _ (by simp [he])
  · intro st2 k e2 t hk
    have := mapGet_filter_pred (m := st2.paymentCache)
      (q := fun p => !(CACHE_DURATION < t - p.2.timestamp)) (k := k) (v := e2)
      hk
    simpa using this

/-- Witness for C7 (amended) at a concrete input: the fixture entry read
22 minutes after it was written. -/
theorem c7_amended_stale_read_is_miss_sweep_evicts_witness :
    ((∀ r, (sVerify exState "1.2.3.4" (some "WX1234567890123") 1320000 true
        .err).outcome ≠ SOutcome.cacheHit r) ∧
     (sVerify exState "1.2.3.4" (some "WX1234567890123") 1320000 true
        .err).remoteCalled = true ∧
     (mapGet (sVerify exState "1.2.3.4" (some "WX1234567890123") 1320000 true
        .err).state.paymentCache ("payment-" ++ "WX1234567890123")).isSome =
       true ∧
     (∀ (st2 : SState) (k : String) (e2 : SCacheEntry) (t : Nat),
       mapGet (cleanupCache t st2).paymentCache k = some e2 →
       t - e2.timestamp ≤ CACHE_DURATION)) :=
  c7_amended_stale_read_is_miss_sweep_evicts exState "1.2.3.4"
    "WX1234567890123" 1320000 exEntry .err (by decide) (by decide) (by decide)
    (by decide)

/-- C3 counterexample: fix the current time at 1000 seconds and deliver a
webhook stamped `"600"` — 400 seconds old, outside the ±300 s window — with
the digest correctly computed for that timestamp and body.  The claim says
signature verification must fail with an auth error; instead both active
paths accept it: `handleWebhook` (which never consults the clock)
acknowledges the delivery, and `verifyWebhookSignature` returns `true`.
No executed code path evaluates the freshness window. -/
theorem c3_counterexample_stale_timestamp_accepted :
    300 < ((1000 : Int) - 600).natAbs ∧
    parseIntStr "600" = some 600 ∧
    (sWebhook exCache "topsecret"
        (some (Crypto.hmacSha256Base64 "topsecret" ("600" ++ "rawbody")))
        (some "600") "rawbody" (some ⟨"OTHER_EVENT", none⟩)).2 =
      .processed ∧
    verifyWebhookSignature "topsecret" "rawbody" "600"
      (generateSignature "topsecret" "rawbody" "600") = true := by
  refine ⟨by decide, by decide, ?_, ?_⟩
  · simp [sWebhook]
  · simp [verifyWebhookSignature]

/-- C3 (amended): the ±300-second freshness rule exists only in the
`validateWebhookSignature` middleware of `middleware/security.js`, which is
exported but never mounted on the webhook routes.  That middleware — and
only it — rejects a parsed timestamp more than 300 seconds from the current
time with a 401 *before and without* any digest comparison, and passes
fresh (or unparsable) timestamps through; the active webhook handlers
compare only the digest, so a correctly signed delivery is accepted
regardless of the timestamp's age. -/
theorem c3_amended_freshness_only_in_unmounted_middleware :
    (∀ (ts sig : String) (now t : Int), parseIntStr ts = some t →
      300 < (now - t).natAbs →
      validateWebhookSignatureMW true (some ts) (some sig) now =
        .unauthorized "Webhook timestamp too old") ∧
    (∀ (ts sig : String) (now t : Int), parseIntStr ts = some t →
      (now - t).natAbs ≤ 300 →
      validateWebhookSignatureMW true (some ts) (some sig) now = .next) ∧
    (∀ (cache : List (String × SCacheEntry)) (secret ts raw : String)
       (parsed : Option WebhookData),
      (sWebhook cache secret
          (some (Crypto.hmacSha256Base64 secret (ts ++ raw))) (some ts) raw
          parsed).2 ≠ .invalidSignature) ∧
    (∀ (secret raw ts : String),
      verifyWebhookSignature secret raw ts
        (generateSignature secret raw ts) = true) := by
  refine ⟨?_, ?_, ?_, ?_⟩
  · intro ts sig now t hp hfar
    simp [validateWebhookSignatureMW, hp, hfar]
  · intro ts sig now t hp hnear
    simp [validateWebhookSignatureMW, hp, Nat.not_lt.mpr hnear]
  · intro cache secret ts raw parsed
    cases parsed with
    | none => simp [sWebhook]
    | some wd =>
      by_cases ht : wd.type == "PAYMENT_SUCCESS_WEBHOOK"
      · cases ho : wd.order with
        | none => simp [sWebhook, ht, ho]
        | some o => simp [sWebhook, ht, ho]
      · simp [sWebhook, ht]
  · intro secret raw ts
    simp [verifyWebhookSignature]

/-- Witness for C3 (amended) at concrete inputs: a 400-second-old
timestamp is 401-rejected by the middleware, a 100-second-old one passes
it, and the active handler accepts a correctly signed delivery. -/
theorem c3_amended_witness :
    (validateWebhookSignatureMW true (some "600") (some "sig") 1000 =
       .unauthorized "Webhook timestamp too old" ∧
     validateWebhookSignatureMW true (some "900") (some "sig") 1000 = .next ∧
     (sWebhook exCache "topsecret"
        (some (Crypto.hmacSha256Base64 "topsecret" ("900" ++ "rawbody")))
        (some "900") "rawbody" (some ⟨"OTHER_EVENT", none⟩)).2 ≠
       WebhookOutcome.invalidSignature ∧
     verifyWebhookSignature "topsecret" "rawbody" "900"
       (generateSignature "topsecret" "rawbody" "900") = true) := by
  have h := c3_amended_freshness_only_in_unmounted_middleware
  exact ⟨h.1 "600" "sig" 1000 600 (by decide) (by decide),
         h.2.1 "900" "sig" 1000 900 (by decide) (by decide),
         h.2.2.1 exCache "topsecret" "900" "rawbody"
           (some ⟨"OTHER_EVENT", none⟩),
         h.2.2.2 "topsecret" "rawbody" "900"⟩

/-! ## Claims about the routed variant (`routes/payment.js`) -/

theorem pVerify_miss_ok (cache : List (String × PCacheEntry)) (oid : String)
    (now : Nat) (od : PRemoteOrder) (pd : Option Nat)
    (hoid : oid ≠ "")
    (hmiss : mapGet cache ("verify_" ++ oid) = none) :
    pVerify cache (some oid) now (.ok od) pd =
      ⟨pCacheCleanup now (mapSet cache ("verify_" ++ oid)
          ⟨pMkResult oid now od
            (if od.order_status == "PAID" then pd else none), now⟩),
       .fresh (pMkResult oid now od
          (if od.order_status == "PAID" then pd else none)), true⟩ := by
  have hne : (oid == "") = false := beq_eq_false_iff_ne.mpr hoid
  simp [pVerify, hne, hmiss, pVerifyRemote]

/-- C6: on a successful verification (the fresh path of the routed
handler), the derived `payment_status` of the produced result follows
`derivePaymentStatus`: it is SUCCESS when the remote `order_status` is
PAID, PENDING when it is ACTIVE, and FAILED for every other value. -/
theorem c6_payment_status_mapping (cache : List (String × PCacheEntry))
    (oid : String) (now : Nat) (od : PRemoteOrder) (pd : Option Nat)
    (hoid : oid ≠ "")
    (hmiss : mapGet cache ("verify_" ++ oid) = none) :
    ∃ r : PResult,
      (pVerify cache (some oid) now (.ok od) pd).outcome = .fresh r ∧
      r.payment_status = derivePaymentStatus od.order_status ∧
      (od.order_status = "PAID" → r.payment_status = "SUCCESS") ∧
      (od.order_status = "ACTIVE" → r.payment_status = "PENDING") ∧
      (od.order_status ≠ "PAID" → od.order_status ≠ "ACTIVE" →
        r.payment_status = "FAILED") := by
  refine ⟨pMkResult oid now od (if od.order_status == "PAID" then pd else none),
    by rw [pVerify_miss_ok cache oid now od pd hoid hmiss], rfl, ?_, ?_, ?_⟩
  · intro h
    simp [pMkResult, derivePaymentStatus, h]
  · intro h
    simp [pMkResult, derivePaymentStatus, h]
  · intro h1 h2
    simp [pMkResult, derivePaymentStatus, h1, h2]

/-- Witness for C6 at a concrete input with an EXPIRED remote status
(neither PAID nor ACTIVE), exercising the FAILED branch. -/
theorem c6_payment_status_mapping_witness :
    ∃ r : PResult,
      (pVerify [] (some "WX1234567890123") 5
          (.ok ⟨"EXPIRED", 299, "INR", "cust"⟩) none).outcome =
        POutcome.fresh r ∧
      r.payment_status = derivePaymentStatus "EXPIRED" ∧
      (("EXPIRED" : String) = "PAID" → r.payment_status = "SUCCESS") ∧
      (("EXPIRED" : String) = "ACTIVE" → r.payment_status = "PENDING") ∧
      (("EXPIRED" : String) ≠ "PAID" → ("EXPIRED" : String) ≠ "ACTIVE" →
        r.payment_status = "FAILED") :=
  c6_payment_status_mapping [] "WX1234567890123" 5
    ⟨"EXPIRED", 299, "INR", "cust"⟩ none (by decide) rfl

set_option maxRecDepth 100000

/-- C9 counterexample: 101 verifications of distinct orders, all inside one
TTL window, leave the routed cache at 101 entries — over the configured
ceiling of 100.  The size-triggered sweep ran (the map exceeded 100 after
the last insert) but removed nothing, because no entry was older than the
TTL: the entry count is not capped at the ceiling. -/
theorem c9_counterexample_cache_exceeds_ceiling :
    (pRunVerifies [] c9oids).length = 101 ∧
    100 < (pRunVerifies [] c9oids).length := by
  have h : (pRunVerifies [] c9oids).length = 101 := by decide
  exact ⟨h, by rw [h]; decide⟩

/-- C9 (amended): when a write pushes the map over 100 entries, the sweep
removes exactly the entries older than the 30-second TTL — every entry
surviving it is within the TTL — and below the ceiling the sweep does
nothing; entries written within the last TTL window are all retained, so
the map can exceed the ceiling. -/
theorem c9_amended_sweep_removes_only_stale :
    (∀ (c : List (String × PCacheEntry)) (now : Nat) (k : String)
       (e : PCacheEntry),
      100 < c.length → mapGet (pCacheCleanup now c) k = some e →
      now - e.timestamp ≤ P_CACHE_DURATION) ∧
    (∀ (c : List (String × PCacheEntry)) (now : Nat),
      c.length ≤ 100 → pCacheCleanup now c = c) := by
  constructor
  · intro c now k e hlen hk
    unfold pCacheCleanup at hk
    rw [if_pos hlen] at hk
    have := mapGet_filter_pred hk
    simpa using this
  · intro c now hlen
    unfold pCacheCleanup
    rw [if_neg (Nat.not_lt.mpr hlen)]

/-- Witness for C9 (amended): over the 101-entry fixture at time 40001 the
sweep keeps the fresh entry `w5` (whose age 1 is within the TTL), and on a
sub-ceiling cache it is the identity. -/
theorem c9_amended_sweep_removes_only_stale_witness :
    ((40001 : Nat) - 40000 ≤ P_CACHE_DURATION ∧
     pCacheCleanup 40001 [("w0", ⟨exPResult, 40000⟩)] =
       [("w0", ⟨exPResult, 40000⟩)]) := by
  refine ⟨?_, ?_⟩
  · exact c9_amended_sweep_removes_only_stale.1 exBigPCache 40001 "w5"
      ⟨exPResult, 40000⟩ (by decide) (by decide)
  · exact c9_amended_sweep_removes_only_stale.2 [("w0", ⟨exPResult, 40000⟩)]
      40001 (by decide)

/-! ## C10: reachable-state invariant of the `server.js` payment cache -/

theorem sVerify_cache_cases (st : SState) (ip : String) (oid? : Option String)
    (now : Nat) (creds : Bool) (remote : RemoteAnswer) :
    (sVerify st ip oid? now creds remote).state.paymentCache =
      st.paymentCache ∨
    ∃ (oid : String) (data : RemoteOrder), oid? = some oid ∧
      remote = .ok data ∧ creds = true ∧ data.order_status = "PAID" ∧
      (sVerify st ip oid? now creds remote).state.paymentCache =
        mapSet st.paymentCache ("payment-" ++ oid) ⟨sMkResult data, now⟩ := by
  cases oid? with
  | none => exact Or.inl rfl
  | some oid =>
    by_cases hne : (oid == "") = true
    · exact Or.inl (by simp [sVerify, hne])
    · have hoid : oid ≠ "" := by
        intro hc
        exact hne (by simp [hc])
      by_cases hrl : (checkRateLimit st.rateLimit ip oid now).1 = true
      · have hrem : ∀ st' : SState, st'.paymentCache = st.paymentCache →
            (sVerifyRemote st' ("payment-" ++ oid) now creds
                remote).state.paymentCache = st.paymentCache ∨
            ∃ (oid' : String) (data : RemoteOrder), some oid = some oid' ∧
              remote = .ok data ∧ creds = true ∧ data.order_status = "PAID" ∧
              (sVerifyRemote st' ("payment-" ++ oid) now creds
                  remote).state.paymentCache =
                mapSet st.paymentCache ("payment-" ++ oid')
                  ⟨sMkResult data, now⟩ := by
          intro st' hst'
          rcases sVerifyRemote_cache_cases st' ("payment-" ++ oid) now creds
            remote with hc | ⟨data, h1, h2, h3, hc⟩
          · exact Or.inl (by rw [hc, hst'])
          · exact Or.inr ⟨oid, data, rfl, h1, h2, h3, by rw [hc, hst']⟩
        cases hc : mapGet st.paymentCache ("payment-" ++ oid) with
        | none =>
          rw [sVerify_miss st ip oid now creds remote hoid hrl hc]
          exact hrem ⟨st.paymentCache, (checkRateLimit st.rateLimit ip oid now).2⟩ rfl
        | some e =>
          by_cases hf : now - e.timestamp < CACHE_DURATION
          · exact Or.inl (by rw [sVerify_cache_hit st ip oid now e creds remote
              hoid hrl hc hf])
          · rw [sVerify_stale st ip oid now creds remote e hoid hrl hc
              (Nat.not_lt.mp hf)]
            exact hrem ⟨st.paymentCache, (checkRateLimit st.rateLimit ip oid now).2⟩ rfl
      · have hrl' : (checkRateLimit st.rateLimit ip oid now).1 = false :=
          Bool.eq_false_iff.mpr hrl
        have hne' : (oid == "") = false := Bool.eq_false_iff.mpr hne
        exact Or.inl (by simp [sVerify, hne', hrl'])

theorem sWebhook_cache_cases (cache : List (String × SCacheEntry))
    (secret : String) (sigHdr tsHdr : Option String) (rawBody : String)
    (parsed : Option WebhookData) :
    (sWebhook cache secret sigHdr tsHdr rawBody parsed).1 = cache ∨
    ∃ k, (sWebhook cache secret sigHdr tsHdr rawBody parsed).1 =
      mapDel cache k := by
  unfold sWebhook
  cases sigHdr with
  | none => exact Or.inl rfl
  | some sig =>
    by_cases hs : (sig == Crypto.hmacSha256Base64 secret
        (tsHdr.getD "undefined" ++ rawBody)) = true
    · simp only [hs, if_true]
      cases parsed with
      | none => exact Or.inl (by trivial)
      | some wd =>
        by_cases ht : (wd.type == "PAYMENT_SUCCESS_WEBHOOK") = true
        · simp only [ht, if_true]
          cases wd.order with
          | none => exact Or.inl (by trivial)
          | some o => exact Or.inr ⟨"payment-" ++ o.order_id, by trivial⟩
        · have ht' : (wd.type == "PAYMENT_SUCCESS_WEBHOOK") = false :=
            Bool.eq_false_iff.mpr ht
          simp only [ht', Bool.false_eq_true, if_false]
          exact Or.inl (by trivial)
    · have hs' := Bool.eq_false_iff.mpr hs
      simp only [hs', Bool.false_eq_true, if_false]
      exact Or.inl (by trivial)

theorem sStep_preserves_paidInv (st : SState) (ev : SEvent)
    (h : sPaidInv st.paymentCache) : sPaidInv (sStep st ev).paymentCache := by
  cases ev with
  | verify ip oid now creds remote =>
    show sPaidInv (sVerify st ip oid now creds remote).state.paymentCache
    rcases sVerify_cache_cases st ip oid now creds remote with
      hc | ⟨oid', data, _, _, _, hpaid, hc⟩
    · rw [hc]; exact h
    · rw [hc]
      intro p hp
      rcases mem_mapSet hp with rfl | hp'
      · exact ⟨by simp [sMkResult, hpaid], by simp [sMkResult, hpaid]⟩
      · exact h p hp'
  | webhook secret sig ts raw parsed =>
    show sPaidInv (sWebhook st.paymentCache secret sig ts raw parsed).1
    rcases sWebhook_cache_cases st.paymentCache secret sig ts raw parsed with
      hc | ⟨k, hc⟩
    · rw [hc]; exact h
    · rw [hc]
      intro p hp
      exact h p (mem_mapDel hp)
  | clearOne oid =>
    intro p hp
    exact h p (mem_mapDel hp)
  | clearAll =>
    intro p hp
    cases hp
  | sweep now =>
    intro p hp
    exact h p (List.mem_filter.mp hp).1

theorem sRun_preserves_paidInv (evs : List SEvent) : ∀ st : SState,
    sPaidInv st.paymentCache → sPaidInv (sRun st evs).paymentCache := by
  induction evs with
  | nil => intro st h; exact h
  | cons ev evs ih => intro st h; exact ih _ (sStep_preserves_paidInv st ev h)

theorem sStep_preserves_absent (st : SState) (ev : SEvent) (X : String)
    (hev : isPaidVerifyFor X ev = false)
    (h : mapGet st.paymentCache ("payment-" ++ X) = none) :
    mapGet (sStep st ev).paymentCache ("payment-" ++ X) = none := by
  cases ev with
  | verify ip oid now creds remote =>
    show mapGet (sVerify st ip oid now creds remote).state.paymentCache
      ("payment-" ++ X) = none
    rcases sVerify_cache_cases st ip oid now creds remote with
      hc | ⟨oid', data, hoid', hrem, hcreds, hpaid, hc⟩
    · rw [hc]; exact h
    · rw [hc]
      subst hoid'
      subst hrem
      subst hcreds
      have hne : oid' ≠ X := by
        intro hEq
        rw [isPaidVerifyFor] at hev
        simp [hEq, hpaid] at hev
      rw [mapGet_set_ne st.paymentCache ("payment-" ++ oid')
        ("payment-" ++ X) ⟨sMkResult data, now⟩
        (fun hk => hne (string_append_left_cancel hk).symm)]
      exact h
  | webhook secret sig ts raw parsed =>
    show mapGet (sWebhook st.paymentCache secret sig ts raw parsed).1
      ("payment-" ++ X) = none
    rcases sWebhook_cache_cases st.paymentCache secret sig ts raw parsed with
      hc | ⟨k, hc⟩
    · rw [hc]; exact h
    · rw [hc]; exact mapGet_none_filter h
  | clearOne oid => exact mapGet_none_filter h
  | clearAll => rfl
  | sweep now => exact mapGet_none_filter h

theorem sRun_preserves_absent (evs : List SEvent) (X : String) : ∀ st : SState,
    (∀ ev ∈ evs, isPaidVerifyFor X ev = false) →
    mapGet st.paymentCache ("payment-" ++ X) = none →
    mapGet (sRun st evs).paymentCache ("payment-" ++ X) = none := by
  induction evs with
  | nil => intro st _ h; exact h
  | cons ev evs ih =>
    intro st htr h
    exact ih _ (fun e he => htr e (List.mem_cons_of_mem ev he))
      (sStep_preserves_absent st ev X (htr ev (List.mem_cons_self ev evs)) h)

/-- C10: in the `server.js` variant, results are cached only when the
remote `order_status` is PAID, so (a) in every state reachable from the
initial empty state, every payment-cache entry holds a result with
`order_status = "PAID"` and `payment_status = "SUCCESS"`, and (b) a
verification of an order for which no PAID verification ever happened in
the history — in particular any not-yet-paid order, whose statuses and
errors are never cached — finds no cache entry and performs the remote
call (given it passes the falsy check and the throttle, with credentials
configured). -/
theorem c10_cache_only_paid_success (tr : List SEvent) :
    (∀ (k : String) (e : SCacheEntry),
      mapGet (sRun sInit tr).paymentCache k = some e →
      e.data.order_status = "PAID" ∧ e.data.payment_status = "SUCCESS") ∧
    (∀ (X ip : String) (now : Nat) (remote : RemoteAnswer),
      X ≠ "" →
      (∀ ev ∈ tr, isPaidVerifyFor X ev = false) →
      (checkRateLimit (sRun sInit tr).rateLimit ip X now).1 = true →
      mapGet (sRun sInit tr).paymentCache ("payment-" ++ X) = none ∧
      (sVerify (sRun sInit tr) ip (some X) now true remote).remoteCalled =
        true) := by
  constructor
  · intro k e hk
    have hinv := sRun_preserves_paidInv tr sInit (by intro p hp; cases hp)
    exact hinv (k, e) (mapGet_eq_some_mem hk)
  · intro X ip now remote hX htr hrl
    have habs := sRun_preserves_absent tr X sInit htr rfl
    refine ⟨habs, ?_⟩
    rw [sVerify_miss (sRun sInit tr) ip X now true remote hX hrl habs]
    exact sVerifyRemote_remoteCalled _ _ _ _

/-- Witness for C10 at a concrete input: after a history in which another
order was verified PAID, the stored entry is a PAID/SUCCESS result, and a
verification of the never-paid order `WX2222222222222` misses the cache
and reaches the remote processor. -/
theorem c10_cache_only_paid_success_witness :
    (((⟨sMkResult ⟨"PAID", 100, "WX1111111111111"⟩, 0⟩ :
        SCacheEntry).data.order_status = "PAID" ∧
      (⟨sMkResult ⟨"PAID", 100, "WX1111111111111"⟩, 0⟩ :
        SCacheEntry).data.payment_status = "SUCCESS") ∧
     (mapGet (sRun sInit exTrace).paymentCache
        ("payment-" ++ "WX2222222222222") = none ∧
      (sVerify (sRun sInit exTrace) "1.2.3.4" (some "WX2222222222222") 5 true
        .err).remoteCalled = true)) := by
  have h := c10_cache_only_paid_success exTrace
  exact ⟨h.1 "payment-WX1111111111111"
      ⟨sMkResult ⟨"PAID", 100, "WX1111111111111"⟩, 0⟩ (by decide),
    h.2 "WX2222222222222" "1.2.3.4" 5 .err (by decide) (by decide) (by decide)⟩

/-! ## The signature round trip (C8)

The first conjunct of the round-trip property holds for all inputs: the
verifier recomputes the very digest the signer produced and compares for
equality.  The second conjunct — that flipping any single byte of the raw
body always flips the verdict to `false` — is equivalent to the assertion
that no single-byte change of the message ever collides under
HMAC-SHA-256, a second-preimage property of SHA-256 that is neither
provable nor refutable here; it is therefore not claimed as a theorem. -/

theorem verify_sign_roundtrip (secret rawBody ts : String) :
    verifyWebhookSignature secret rawBody ts
      (generateSignature secret rawBody ts) = true := by
  simp [verifyWebhookSignature]

theorem verify_false_iff_digest_differs (secret rawBody ts sig : String) :
    verifyWebhookSignature secret rawBody ts sig = false ↔
      generateSignature secret rawBody ts ≠ sig := by
  simp [verifyWebhookSignature]

/-- Sanity check of the digest embedding against the FIPS 180-4 test
vector: `SHA-256("abc") = ba7816bf 8f01cfea 414140de 5dae2223 b00361a3
96177a9c b410ff61 f20015ad`. -/
theorem sha256_known_answer_abc :
    Crypto.sha256 (Crypto.strBytes "abc") =
      [186, 120, 22, 191, 143, 1, 207, 234,
       65, 65, 64, 222, 93, 174, 34, 35,
       176, 3, 97, 163, 150, 23, 122, 156,
       180, 16, 255, 97, 242, 0, 21, 173] := by
  decide
